import Mathlib

/-!
Verification of the subdomain discovery service (src/main.py) against its
natural-language specification.

The Python source is shallowly embedded: pure string manipulation is
translated to executable Lean functions on `String` / `List Char`; every
outbound I/O interaction (DNS resolution, HTTP requests) is replaced by an
explicit oracle argument describing the outcome of that interaction, so that
each adapter becomes a total function of its oracle; the orchestrator loop
becomes a fold over the selected methods.  The two genuinely temporal
aspects (the latency behaviour of the orchestrator loop and the semaphore
bound of the DNS fan-out) are modelled by a latency semantics and a
small-step transition system respectively, each explained at its definition.
-/

set_option maxRecDepth 40000

/-! ## Character primitives

`main.py` works with Python `str`; the relevant character operations are
translated here.  Code points are compared through `Char.toNat`; the ASCII
ranges 97-122, 65-90 and 48-57 are exactly the classes `[a-z]`, `[A-Z]` and
`[0-9]` used by the validation regex on line 26 of src/main.py.
-/

/-- Membership in the regex character classes `[a-zA-Z0-9]` (src/main.py
line 26). -/
def isAlnum (c : Char) : Bool :=
  decide ((97 ≤ c.toNat ∧ c.toNat ≤ 122) ∨ (65 ≤ c.toNat ∧ c.toNat ≤ 90) ∨
    (48 ≤ c.toNat ∧ c.toNat ≤ 57))

/-- Membership in the regex character class `[a-zA-Z0-9\-]` (src/main.py
line 26). -/
def isLabelChar (c : Char) : Bool :=
  isAlnum c || decide (c = '-')

/-- Membership in the overall domain character set `[a-zA-Z0-9.-]` of the
specification. -/
def inDomainCharset (c : Char) : Bool :=
  isLabelChar c || decide (c = '.')

/-- Python `str.lower` on one character.  The inputs this is applied to in
the claims are ASCII (they either matched the ASCII-only validation regex or
occur in concrete scenario strings), so only the ASCII range `A`-`Z` needs
to be mapped. -/
def pyToLower (c : Char) : Char :=
  if 65 ≤ c.toNat ∧ c.toNat ≤ 90 then Char.ofNat (c.toNat + 32) else c

/-- Python `str.lower` (used on src/main.py lines 29 and 127). -/
def pyLower (s : String) : String :=
  ⟨s.data.map pyToLower⟩

/-- The characters Python `str.strip` removes: ASCII whitespace. -/
def isPyWhitespace (c : Char) : Bool :=
  decide (c = ' ') || decide (c = '\t') || decide (c = '\n') || decide (c = '\r') ||
    decide (c = '\x0b') || decide (c = '\x0c')

/-- Python `str.strip` (src/main.py lines 127 and 162): drop whitespace from
both ends. -/
def pyStrip (s : String) : String :=
  ⟨((s.data.dropWhile isPyWhitespace).reverse.dropWhile isPyWhitespace).reverse⟩

/-- Python `str.endswith` (src/main.py lines 129, 163, 214): suffix test. -/
def pyEndsWith (s p : String) : Bool :=
  decide (p.data <:+ s.data)

/-- Python `c in s` for a single-character needle (src/main.py lines 130 and
161): character membership. -/
def pyContainsChar (s : String) (c : Char) : Bool :=
  decide (c ∈ s.data)

/-- Python `str.split(sep)` for a one-character separator, on the character
list: splits at every occurrence of `sep`, keeping empty pieces, and yields
`[[]]` on the empty input, exactly like Python. -/
def splitOnChar (sep : Char) : List Char → List (List Char)
  | [] => [[]]
  | c :: cs =>
    match splitOnChar sep cs with
    | [] => [[]]
    | l :: ls => if c = sep then [] :: l :: ls else (c :: l) :: ls

/-- Python `str.split(sep)` on strings (src/main.py lines 126, 132, 158,
162). -/
def pySplit (sep : Char) (s : String) : List String :=
  (splitOnChar sep s.data).map (fun l => ⟨l⟩)

/-! ## Domain validation (src/main.py lines 23-29)

The validator applies
`re.match(r'^[a-zA-Z0-9]([a-zA-Z0-9\-]{0,61}[a-zA-Z0-9])?(\.[a-zA-Z0-9]([a-zA-Z0-9\-]{0,61}[a-zA-Z0-9])?)*$', v)`
and on success returns `v.lower()`.  The language of that pattern is: one or
more dot-separated labels, where a label is a single alphanumeric character,
or an alphanumeric character followed by up to 61 characters from
`[a-zA-Z0-9-]` followed by an alphanumeric character.  One subtlety of
Python `re`: the `$` anchor also matches just before a single newline at the
very end of the string, so `re.match` accepts `s + "\n"` whenever it accepts
`s`; `domainCore` accounts for that.
-/

/-- One label of the regex: `[a-zA-Z0-9]([a-zA-Z0-9\-]{0,61}[a-zA-Z0-9])?`.
A nonempty list matches iff its head is alphanumeric and the remainder is
either empty or consists of at most 61 label characters followed by a final
alphanumeric character. -/
def validLabel : List Char → Bool
  | [] => false
  | c :: rest =>
    isAlnum c &&
      (rest.isEmpty ||
        (decide (rest.length ≤ 62) && rest.dropLast.all isLabelChar &&
          isAlnum (rest.getLastD 'a')))

/-- The character list the regex body must match: the whole input, minus a
single trailing newline if present (Python `$` semantics, see above). -/
def domainCore (s : String) : List Char :=
  if s.data.getLastD '\x00' = '\n' then s.data.dropLast else s.data

/-- Whether `re.match(domain_pattern, v)` succeeds (src/main.py line 27). -/
def matchesDomainPattern (s : String) : Bool :=
  (splitOnChar '.' (domainCore s)).all validLabel

/-- The `validate_domain` field validator (src/main.py lines 23-29): reject
with `ValueError` unless the regex matches, otherwise return the lowercased
input. -/
def validate_domain (v : String) : Except String String :=
  if matchesDomainPattern v then Except.ok (pyLower v) else Except.error ("Invalid domain format")

/-- Whether a validation result is a success. -/
def validationAccepts : Except String String → Bool
  | Except.ok _ => true
  | Except.error _ => false

/-! ## Method validation (src/main.py lines 31-39) -/

/-- The closed set of known methods (src/main.py line 34). -/
def valid_methods : List String :=
  ["dns", "crt", "hackertarget", "threatcrowd", "virustotal"]

/-- The `validate_methods` field validator (src/main.py lines 31-39).
`none` stands for an omitted or null `methods` field.  For a present list,
`if v:` skips the check when the list is empty; any member outside
`valid_methods` raises; finally `v or ["dns", "crt"]` replaces a falsy
(empty) list by the default pair. -/
def validate_methods (v : Option (List String)) : Except String (List String) :=
  match v with
  | none => Except.ok (["dns", "crt"])
  | some ms =>
    if ms.any (fun m => !(valid_methods.contains m)) then
      Except.error ("Invalid method")
    else Except.ok (if ms.isEmpty then ["dns", "crt"] else ms)

/-! ## Source adapters

Every adapter's outbound HTTP interaction is replaced by an oracle value of
type `HttpOutcome β`: either the request (or reading/parsing its body)
raised — which the adapter's `except` handler absorbs — or it produced a
status code together with the parsed body (`none` when reading or parsing
the body would itself raise).  With the I/O abstracted this way, each
adapter is the total function the `try/except` structure of the source
makes it.
-/

/-- Outcome of one HTTP request, as seen by the adapter code. -/
inductive HttpOutcome (β : Type) where
  | exn : HttpOutcome β
  | resp : Nat → Option β → HttpOutcome β

/-- One certificate record of the crt.sh JSON response; `cert.get('name_value', '')`
(src/main.py line 124) defaults a missing field to the empty string. -/
structure CTCert where
  name_value : Option String
deriving DecidableEq

/-- The filter on one processed certificate name (src/main.py lines
129-132): keep a (stripped, lowercased) name iff it ends with `.{domain}`,
contains no `*`, differs from the domain, and splits into at least two
dot-separated parts. -/
def ct_name_ok (domain n : String) : Bool :=
  pyEndsWith n (("." : String) ++ domain) && !(pyContainsChar n '*') &&
    !(decide (n = domain)) && decide (2 ≤ (pySplit '.' n).length)

/-- The names one certificate record contributes (src/main.py lines
123-133): split `name_value` on newlines, strip and lowercase each piece,
keep those passing `ct_name_ok`. -/
def ctCertNames (domain : String) (cert : CTCert) : List String :=
  ((pySplit '\n' (cert.name_value.getD (""))).map (fun raw => pyLower (pyStrip raw))).filter
    (ct_name_ok domain)

/-- Processing of one CT query variant (src/main.py lines 115-138): on a 200
response whose body parsed, add every contributed name; a non-200 status, a
body that fails to parse (`response.json()` raising, caught by the per-url
`except`), or any other exception leaves the accumulator unchanged. -/
def ctHandleOutcome (domain : String) (acc : Finset String) :
    HttpOutcome (List CTCert) → Finset String
  | HttpOutcome.exn => acc
  | HttpOutcome.resp status body =>
    if status = 200 then
      match body with
      | some certs => acc ∪ ((certs.map (ctCertNames domain)).flatten).toFinset
      | none => acc
    else acc

/-- The certificate-transparency adapter (src/main.py lines 98-144), over
the list of outcomes of its query variants.  The source iterates over two
URLs; an exception of the outer `try` (before or between queries) simply
truncates that iteration, which is why the outcome list has arbitrary
length here. -/
def certificate_transparency_discovery (domain : String)
    (outcomes : List (HttpOutcome (List CTCert))) : Finset String :=
  outcomes.foldl (ctHandleOutcome domain) ∅

/-- The HackerTarget adapter (src/main.py lines 146-169): on a 200 response
whose text body was read, split the stripped text into lines; from every
line containing a comma take the stripped field before the first comma and
keep it iff it ends with `.{domain}` and differs from the domain.  Any
failure yields the empty set. -/
def hackertarget_discovery (domain : String) (o : HttpOutcome String) : Finset String :=
  match o with
  | HttpOutcome.exn => ∅
  | HttpOutcome.resp status body =>
    if status = 200 then
      match body with
      | some text =>
        ((pySplit '\n' (pyStrip text)).filterMap (fun line =>
          if pyContainsChar line ',' then
            let sub := pyStrip ((pySplit ',' line).headD (""))
            if pyEndsWith sub (("." : String) ++ domain) && !(decide (sub = domain)) then
              some sub
            else none
          else none)).toFinset
      | none => ∅
    else ∅

/-- The ThreatCrowd adapter (src/main.py lines 171-192): on a 200 response
whose JSON parsed, `data.get('subdomains', [])` is a list of strings; keep
every entry that is truthy (nonempty) and differs from the domain.  Note no
suffix or wildcard check.  Any failure yields the empty set. -/
def threatcrowd_discovery (domain : String) (o : HttpOutcome (List String)) : Finset String :=
  match o with
  | HttpOutcome.exn => ∅
  | HttpOutcome.resp status body =>
    if status = 200 then
      match body with
      | some subs =>
        (subs.filter (fun s => !(decide (s = "")) && !(decide (s = domain)))).toFinset
      | none => ∅
    else ∅

/-- The VirusTotal adapter (src/main.py lines 194-220): on a 200 response
whose JSON parsed, keep every truthy entry of `subdomains` that ends with
`.{domain}`.  Any failure yields the empty set. -/
def virustotal_discovery (domain : String) (o : HttpOutcome (List String)) : Finset String :=
  match o with
  | HttpOutcome.exn => ∅
  | HttpOutcome.resp status body =>
    if status = 200 then
      match body with
      | some subs =>
        (subs.filter (fun s =>
          !(decide (s = "")) && pyEndsWith s (("." : String) ++ domain))).toFinset
      | none => ∅
    else ∅

/-- The built-in wordlist `common_subdomains` (src/main.py lines 51-62). -/
def common_subdomains : List String :=
  ["www", "mail", "ftp", "localhost", "webmail", "smtp", "pop", "ns1", "webdisk",
   "ns2", "cpanel", "whm", "autodiscover", "autoconfig", "mx", "test", "dev",
   "staging", "api", "admin", "blog", "shop", "forum", "support", "help",
   "secure", "ssl", "vpn", "remote", "demo", "beta", "alpha", "mobile",
   "app", "cdn", "static", "media", "images", "img", "assets", "files",
   "portal", "server", "ns", "email", "cloud", "backup", "mysql", "sql",
   "database", "db", "ftp2", "ns3", "dns", "search", "login", "panel",
   "control", "secure2", "admin2", "test2", "demo2", "beta2", "alpha2",
   "old", "new", "web", "web1", "web2", "home", "my", "all", "mobile2",
   "store", "news", "download", "upload", "video", "music", "game", "chat"]

/-- The DNS wordlist adapter (src/main.py lines 76-96).  `dns_lookup`
catches every exception and returns a boolean, so the resolver is an oracle
`resolves : String → Bool`; `check_subdomain` returns `f"{sub}.{domain}"`
on success and `None` otherwise, and the gather loop collects the non-`None`
results into a set. -/
def dns_discovery (domain : String) (resolves : String → Bool) : Finset String :=
  ((common_subdomains.filter (fun sub => resolves (sub ++ (("." : String) ++ domain)))).map
    (fun sub => sub ++ (("." : String) ++ domain))).toFinset

/-! ## The orchestrator (src/main.py lines 222-257) and the endpoint
(lines 292-313)

The loop on lines 230-243 appends `(name, coroutine)` pairs following the
fixed order dns, crt, hackertarget, threatcrowd, virustotal, keeping exactly
the requested methods; this is `selectedMethods`.  The loop on lines
246-255 then awaits each coroutine inside a `try`, on success storing the
sorted result list and adding the set to the union, on an exception storing
the empty list; this is a fold of `orchStep`.  The per-method call is
abstracted as `run : String → Except Unit (Finset String)` so that the
defensive `except` branch of the orchestrator is represented even though
the adapters themselves never raise. -/

/-- The dispatch order and selection of src/main.py lines 230-243. -/
def methodOrder : List String :=
  ["dns", "crt", "hackertarget", "threatcrowd", "virustotal"]

/-- The methods actually dispatched, in dispatch order. -/
def selectedMethods (methods : List String) : List String :=
  methodOrder.filter (fun m => methods.contains m)

/-- Python `sorted(list(method_results))` (src/main.py line 250). -/
def sortedSubs (s : Finset String) : List String :=
  Finset.sort (fun a b => a ≤ b) s

/-- One iteration of the orchestrator loop (src/main.py lines 246-255). -/
def orchStep (run : String → Except Unit (Finset String))
    (acc : Finset String × List (String × List String)) (m : String) :
    Finset String × List (String × List String) :=
  match run m with
  | Except.ok s => (acc.1 ∪ s, acc.2 ++ [(m, sortedSubs s)])
  | Except.error _ => (acc.1, acc.2 ++ [(m, [])])

/-- `AdvancedSubdomainDiscovery.discover_subdomains` (src/main.py lines
222-257): returns the union of all successful adapter results together with
the per-method breakdown (an association list, in dispatch order, mirroring
the insertion-ordered Python dict). -/
def discover_subdomains (methods : List String)
    (run : String → Except Unit (Finset String)) :
    Finset String × List (String × List String) :=
  (selectedMethods methods).foldl (orchStep run) (∅, [])

/-- The response model `SubdomainResponse` (src/main.py lines 41-46). -/
structure SubdomainResponse where
  domain : String
  subdomains : List String
  total_found : Nat
  methods_used : List String
  results_by_method : List (String × List String)
deriving DecidableEq

/-- The `/discover` endpoint body (src/main.py lines 292-313), after
validation: run the orchestrator and package the report, with
`subdomains = sorted(list(all))` and `total_found = len(all)`. -/
def discover_subdomains_route (domain : String) (methods : List String)
    (run : String → Except Unit (Finset String)) : SubdomainResponse :=
  { domain := domain
    subdomains := Finset.sort (fun a b => a ≤ b) (discover_subdomains methods run).1
    total_found := (discover_subdomains methods run).1.card
    methods_used := methods
    results_by_method := (discover_subdomains methods run).2 }

/-- The oracle bundle describing every outbound interaction of one request. -/
structure AdapterEnv where
  resolves : String → Bool
  ct : List (HttpOutcome (List CTCert))
  ht : HttpOutcome String
  tc : HttpOutcome (List String)
  vt : HttpOutcome (List String)

/-- Dispatch from method name to adapter (src/main.py lines 230-243). -/
def runAdapters (env : AdapterEnv) (domain : String) (m : String) : Finset String :=
  if m = ("dns" : String) then dns_discovery domain env.resolves
  else if m = ("crt" : String) then certificate_transparency_discovery domain env.ct
  else if m = ("hackertarget" : String) then hackertarget_discovery domain env.ht
  else if m = ("threatcrowd" : String) then threatcrowd_discovery domain env.tc
  else if m = ("virustotal" : String) then virustotal_discovery domain env.vt
  else ∅

/-- A whole request: pydantic validation of both fields (src/main.py lines
19-39) happens before the endpoint body runs; only then is the orchestrator
invoked with the validated domain and methods. -/
def processRequest (env : AdapterEnv) (domain : String)
    (methods : Option (List String)) : Except String SubdomainResponse :=
  match validate_domain domain with
  | Except.error e => Except.error e
  | Except.ok d =>
    match validate_methods methods with
    | Except.error e => Except.error e
    | Except.ok ms =>
      Except.ok (discover_subdomains_route d ms (fun m => Except.ok (runAdapters env d m)))

/-! ## Latency model of the orchestrator loop (src/main.py lines 228-256)

Lines 230-243 call the `async def` adapters, which in Python creates
coroutine objects without starting or scheduling them (no
`asyncio.create_task` / `asyncio.gather` is involved).  Line 249 then
awaits each stored coroutine inside the sequential `for` loop, so each
adapter starts only after the previous one has finished: awaiting a
coroutine that takes `lat m` time units advances elapsed time by `lat m`.
Total elapsed time for the request is therefore the fold below — the sum of
the selected adapters' latencies. -/
def orchestratorElapsed (methods : List String) (lat : String → Nat) : Nat :=
  (selectedMethods methods).foldl (fun t m => t + lat m) 0

/-! ## The DNS fan-out semaphore (src/main.py lines 80-90)

`dns_discovery` creates `asyncio.Semaphore(50)` and wraps every probe in
`async with semaphore`, so a probe is in flight only while holding a
permit.  The transition system below is the standard small-step model of
that discipline: a pending probe may start only when a permit is free
(acquire, decrementing the counter), and a finishing probe releases its
permit.  `pending` is initialised to the wordlist length, which is
arbitrary here so that the bound is independent of the wordlist size. -/

/-- The semaphore initial value (src/main.py line 81). -/
def dnsSemaphoreValue : Nat := 50

/-- State of the DNS fan-out: probes not yet started, probes in flight, and
free semaphore permits. -/
structure DnsFanout where
  pending : Nat
  inflight : Nat
  permits : Nat
deriving DecidableEq

/-- Initial state for a wordlist of `n` entries: nothing started, all
permits free. -/
def dnsFanoutInit (n : Nat) : DnsFanout :=
  { pending := n, inflight := 0, permits := dnsSemaphoreValue }

/-- Small-step semantics of the semaphore-gated fan-out: `acquire` starts a
pending probe when a permit is free; `release` finishes a probe and returns
its permit. -/
inductive DnsStep : DnsFanout → DnsFanout → Prop
  | acquire (s : DnsFanout) (hp : 0 < s.pending) (hfree : 0 < s.permits) :
      DnsStep s { pending := s.pending - 1, inflight := s.inflight + 1, permits := s.permits - 1 }
  | release (s : DnsFanout) (hi : 0 < s.inflight) :
      DnsStep s { pending := s.pending, inflight := s.inflight - 1, permits := s.permits + 1 }

/-! ## Auxiliary definitions used by the statements -/

/-- The set an adapter call contributes in the orchestrator: its result on
success, the empty set when the call raised. -/
def okSet (run : String → Except Unit (Finset String)) (m : String) : Finset String :=
  match run m with
  | Except.ok s => s
  | Except.error _ => ∅

/-- The `results_by_method` entry one method produces (src/main.py lines
250 and 255). -/
def methodEntry (run : String → Except Unit (Finset String)) (m : String) :
    String × List String :=
  match run m with
  | Except.ok s => (m, sortedSubs s)
  | Except.error _ => (m, [])

/-- Union of the contributions of a list of methods. -/
def unionRun (run : String → Except Unit (Finset String)) (l : List String) : Finset String :=
  l.foldr (fun m t => okSet run m ∪ t) ∅

/-- Deduplicating union of the per-method result lists of a report. -/
def listUnion (R : List (String × List String)) : Finset String :=
  R.foldr (fun p t => p.2.toFinset ∪ t) ∅

/-- Whether an HTTP outcome is anything other than a successfully parsed
200 response: an exception, a timeout (an exception in `aiohttp`), a
non-success status, or an unparseable body. -/
def httpFailed {β : Type} : HttpOutcome β → Bool
  | HttpOutcome.exn => true
  | HttpOutcome.resp status body => !(decide (status = 200)) || body.isNone

/-- The specification's label rule, stated in its own words: a label is
nonempty, at most 63 characters, drawn from `[a-zA-Z0-9-]`, and neither
starts nor ends with a hyphen.  (Spec-side companion of `validLabel`, for
the refinement statements.) -/
def spec_label_ok (l : List Char) : Prop :=
  l ≠ [] ∧ l.length ≤ 63 ∧ (∀ c ∈ l, isLabelChar c = true) ∧
    l.head? ≠ some '-' ∧ l.getLast? ≠ some '-'

/-- The specification's domain rule applied label by label (to the input
minus the tolerated single trailing newline). -/
def spec_domain_ok (s : String) : Prop :=
  ∀ l ∈ splitOnChar '.' (domainCore s), spec_label_ok l

/-- A 255-character domain consisting of 128 labels `a`: `a.a.⋯.a`. -/
def longLabelChain : String :=
  ⟨(List.replicate 127 ['a', '.']).flatten ++ ['a']⟩

/-- Oracle bundle in which ThreatCrowd answers with a single foreign
wildcard name and every other source fails. -/
def envThreatcrowdStar : AdapterEnv :=
  { resolves := fun _ => false
    ct := []
    ht := HttpOutcome.exn
    tc := HttpOutcome.resp 200 (some (["*.evil.org"]))
    vt := HttpOutcome.exn }

/-- Oracle bundle in which only `www.example.com` resolves and every HTTP
source fails. -/
def envOnlyWww : AdapterEnv :=
  { resolves := fun x => x == ("www.example.com")
    ct := []
    ht := HttpOutcome.exn
    tc := HttpOutcome.exn
    vt := HttpOutcome.exn }

/-! ## Character-level lemmas -/

/-- `Char.ofNat` is a right inverse of `Char.toNat` below 256. -/
theorem charOfNat_toNat_small : ∀ n < 256, (Char.ofNat n).toNat = n := by decide

/-- Characters with equal code points are equal. -/
theorem char_toNat_inj {c d : Char} (h : c.toNat = d.toNat) : c = d :=
  Char.ext (UInt32.ext h)

/-- On an uppercase ASCII letter, `pyToLower` shifts the code point by 32. -/
theorem pyToLower_toNat_upper {c : Char} (h : 65 ≤ c.toNat ∧ c.toNat ≤ 90) :
    (pyToLower c).toNat = c.toNat + 32 := by
  unfold pyToLower
  rw [if_pos h]
  exact charOfNat_toNat_small (c.toNat + 32) (by omega)

/-- Outside the uppercase ASCII range, `pyToLower` is the identity. -/
theorem pyToLower_not_upper {c : Char} (h : ¬(65 ≤ c.toNat ∧ c.toNat ≤ 90)) :
    pyToLower c = c := by
  unfold pyToLower
  rw [if_neg h]

/-- Lowercasing does not change alphanumericity. -/
theorem isAlnum_pyToLower (c : Char) : isAlnum (pyToLower c) = isAlnum c := by
  by_cases h : 65 ≤ c.toNat ∧ c.toNat ≤ 90
  · have h1 := pyToLower_toNat_upper h
    unfold isAlnum
    rw [h1, decide_eq_decide]
    omega
  · rw [pyToLower_not_upper h]

/-- For a target character that is not a lowercase ASCII letter nor an
uppercase one, `pyToLower c = d` holds exactly when `c = d`. -/
theorem pyToLower_fixed_iff {c d : Char}
    (hd : d.toNat < 65 ∨ (90 < d.toNat ∧ d.toNat < 97) ∨ 122 < d.toNat) :
    pyToLower c = d ↔ c = d := by
  by_cases h : 65 ≤ c.toNat ∧ c.toNat ≤ 90
  · have h1 := pyToLower_toNat_upper h
    constructor
    · intro he
      rw [he] at h1
      omega
    · intro he
      subst he
      omega
  · rw [pyToLower_not_upper h]

/-- Lowercasing does not change membership in `[a-zA-Z0-9-]`. -/
theorem isLabelChar_pyToLower (c : Char) : isLabelChar (pyToLower c) = isLabelChar c := by
  unfold isLabelChar
  rw [isAlnum_pyToLower]
  have h2 : decide (pyToLower c = '-') = decide (c = '-') :=
    decide_eq_decide.mpr (pyToLower_fixed_iff (by decide))
  rw [h2]

/-- `pyToLower` is idempotent. -/
theorem pyToLower_idem (c : Char) : pyToLower (pyToLower c) = pyToLower c := by
  by_cases h : 65 ≤ c.toNat ∧ c.toNat ≤ 90
  · have h1 := pyToLower_toNat_upper h
    apply pyToLower_not_upper
    omega
  · rw [pyToLower_not_upper h]
    exact pyToLower_not_upper h

/-- A character is alphanumeric exactly when it is a label character other
than the hyphen. -/
theorem isAlnum_iff_labelChar (c : Char) :
    isAlnum c = true ↔ (isLabelChar c = true ∧ c ≠ '-') := by
  unfold isLabelChar
  constructor
  · intro h
    refine ⟨by rw [h, Bool.true_or], ?_⟩
    intro he
    rw [he] at h
    exact absurd h (by decide)
  · rintro ⟨h1, h2⟩
    cases h : isAlnum c
    · rw [h, Bool.false_or] at h1
      exact absurd (of_decide_eq_true h1) h2
    · rfl

/-! ## Lemmas about `splitOnChar` and labels -/

/-- `splitOnChar` always yields at least one piece. -/
theorem splitOnChar_ne_nil (sep : Char) : ∀ l : List Char, splitOnChar sep l ≠ []
  | [] => by simp [splitOnChar]
  | c :: cs => by
    unfold splitOnChar
    cases h : splitOnChar sep cs with
    | nil => simp
    | cons a as => by_cases hc : c = sep <;> simp [hc]

/-- A list without the separator is a single piece. -/
theorem splitOnChar_eq_single (sep : Char) :
    ∀ l : List Char, (∀ c ∈ l, c ≠ sep) → splitOnChar sep l = [l]
  | [], _ => rfl
  | c :: cs, h => by
    have ih := splitOnChar_eq_single sep cs (fun x hx => h x (List.mem_cons_of_mem c hx))
    have hc : c ≠ sep := h c (List.mem_cons_self c cs)
    unfold splitOnChar
    rw [ih]
    simp [hc]

/-- Splitting commutes with mapping a function that neither creates nor
destroys the separator. -/
theorem splitOnChar_map (sep : Char) (f : Char → Char) (hf : ∀ c, f c = sep ↔ c = sep) :
    ∀ l : List Char, splitOnChar sep (l.map f) = (splitOnChar sep l).map (List.map f)
  | [] => rfl
  | c :: cs => by
    have ih := splitOnChar_map sep f hf cs
    have hne := splitOnChar_ne_nil sep cs
    cases h : splitOnChar sep cs with
    | nil => exact absurd h hne
    | cons a as =>
      rw [h] at ih
      show splitOnChar sep (f c :: cs.map f) = _
      unfold splitOnChar
      rw [ih, h]
      simp only [List.map_cons]
      by_cases hc : c = sep
      · rw [if_pos ((hf c).mpr hc), if_pos hc]
        simp
      · rw [if_neg (fun hx => hc ((hf c).mp hx)), if_neg hc]
        simp

/-- Two booleans agreeing as propositions are equal. -/
theorem bool_eq_of_iff {a b : Bool} (h : a = true ↔ b = true) : a = b := by
  cases a <;> cases b <;> simp_all

/-- The regex label alternation `A(M{0,61}A)?` recognises exactly the
specification's label rule: nonempty, at most 63 characters from
`[a-zA-Z0-9-]`, no hyphen at either end. -/
theorem validLabel_iff : ∀ l : List Char, validLabel l = true ↔ spec_label_ok l
  | [] => by simp [validLabel, spec_label_ok]
  | c :: rest => by
    rcases rest.eq_nil_or_concat with hnil | ⟨m, z, hconc⟩
    · subst hnil
      have h1 : validLabel [c] = isAlnum c := by simp [validLabel]
      rw [h1, isAlnum_iff_labelChar]
      unfold spec_label_ok
      simp
    · subst hconc
      simp only [List.concat_eq_append]
      have hie : (m ++ [z]).isEmpty = false := by cases m <;> rfl
      have h1 : validLabel (c :: (m ++ [z])) =
          (isAlnum c &&
            (decide (m.length + 1 ≤ 62) && m.all isLabelChar && isAlnum z)) := by
        simp [validLabel, hie, List.dropLast_concat]
      rw [h1]
      unfold spec_label_ok
      have hlast : (c :: (m ++ [z])).getLast? = some z := by
        rw [← List.cons_append]
        exact List.getLast?_concat (c :: m)
      simp only [Bool.and_eq_true, decide_eq_true_eq, List.all_eq_true,
        List.length_cons, List.length_append, List.length_singleton,
        List.head?_cons, hlast, ne_eq, List.mem_cons, List.mem_append,
        List.mem_singleton, Option.some.injEq]
      constructor
      · rintro ⟨hc, ⟨hlen, hall⟩, hz⟩
        obtain ⟨hcl, hcne⟩ := (isAlnum_iff_labelChar c).mp hc
        obtain ⟨hzl, hzne⟩ := (isAlnum_iff_labelChar z).mp hz
        refine ⟨by simp, by simp only [List.length_nil]; omega, ?_, hcne, hzne⟩
        rintro x (rfl | hx | rfl | hx)
        · exact hcl
        · exact hall x hx
        · exact hzl
        · exact absurd hx (List.not_mem_nil x)
      · rintro ⟨-, hlen, hmem, hhead, hlast2⟩
        simp only [List.length_nil] at hlen
        refine ⟨?_, ⟨by omega, ?_⟩, ?_⟩
        · exact (isAlnum_iff_labelChar c).mpr ⟨hmem c (Or.inl rfl), hhead⟩
        · exact fun x hx => hmem x (Or.inr (Or.inl hx))
        · exact (isAlnum_iff_labelChar z).mpr ⟨hmem z (Or.inr (Or.inr (Or.inl rfl))), hlast2⟩

/-- The specification label rule is invariant under lowercasing. -/
theorem spec_label_ok_map_pyToLower (l : List Char) :
    spec_label_ok (l.map pyToLower) ↔ spec_label_ok l := by
  unfold spec_label_ok
  have hhy : ∀ c : Char, pyToLower c = '-' ↔ c = '-' :=
    fun c => pyToLower_fixed_iff (by decide)
  constructor <;> intro h
  · obtain ⟨h1, h2, h3, h4, h5⟩ := h
    refine ⟨?_, ?_, ?_, ?_, ?_⟩
    · intro he
      exact h1 (by rw [he]; rfl)
    · simpa using h2
    · intro x hx
      have := h3 (pyToLower x) (List.mem_map_of_mem pyToLower hx)
      rwa [isLabelChar_pyToLower] at this
    · intro he
      apply h4
      rw [List.head?_map, he]
      simp [(hhy _).mpr rfl]
    · intro he
      apply h5
      rw [List.getLast?_map, he]
      simp [(hhy _).mpr rfl]
  · obtain ⟨h1, h2, h3, h4, h5⟩ := h
    refine ⟨?_, ?_, ?_, ?_, ?_⟩
    · simpa using h1
    · simpa using h2
    · intro x hx
      obtain ⟨y, hy, rfl⟩ := List.mem_map.mp hx
      rw [isLabelChar_pyToLower]
      exact h3 y hy
    · rw [List.head?_map]
      intro he
      cases hh : l.head? with
      | none => rw [hh] at he; exact Option.noConfusion he
      | some y =>
        rw [hh] at he
        simp at he
        exact h4 (by rw [hh, (hhy y).mp he])
    · rw [List.getLast?_map]
      intro he
      cases hh : l.getLast? with
      | none => rw [hh] at he; exact Option.noConfusion he
      | some y =>
        rw [hh] at he
        simp at he
        exact h5 (by rw [hh, (hhy y).mp he])

/-- `validLabel` is invariant under lowercasing. -/
theorem validLabel_map_pyToLower (l : List Char) :
    validLabel (l.map pyToLower) = validLabel l :=
  bool_eq_of_iff (by rw [validLabel_iff, validLabel_iff]; exact spec_label_ok_map_pyToLower l)

/-! ## Lemmas about the domain validator -/

/-- The trailing-newline test is invariant under lowercasing. -/
theorem domainCore_newline_iff (s : String) :
    (pyLower s).data.getLastD '\x00' = '\n' ↔ s.data.getLastD '\x00' = '\n' := by
  show (s.data.map pyToLower).getLastD '\x00' = '\n' ↔ _
  rw [List.getLastD_eq_getLast?, List.getLastD_eq_getLast?, List.getLast?_map]
  cases s.data.getLast? with
  | none => simp
  | some z =>
    simp only [Option.map_some', Option.getD_some]
    exact pyToLower_fixed_iff (by decide)

/-- Lowercasing commutes with stripping the tolerated trailing newline. -/
theorem domainCore_pyLower (s : String) :
    domainCore (pyLower s) = (domainCore s).map pyToLower := by
  unfold domainCore
  by_cases hc : s.data.getLastD '\x00' = '\n'
  · rw [if_pos ((domainCore_newline_iff s).mpr hc), if_pos hc]
    show (s.data.map pyToLower).dropLast = s.data.dropLast.map pyToLower
    exact (List.map_dropLast pyToLower s.data).symm
  · rw [if_neg (fun h => hc ((domainCore_newline_iff s).mp h)), if_neg hc]
    rfl

/-- The validation regex is case-insensitive: it matches the lowercased
string exactly when it matches the original. -/
theorem matchesDomainPattern_pyLower (s : String) :
    matchesDomainPattern (pyLower s) = matchesDomainPattern s := by
  unfold matchesDomainPattern
  rw [domainCore_pyLower,
    splitOnChar_map '.' pyToLower (fun c => pyToLower_fixed_iff (by decide)),
    List.all_map]
  congr 1
  funext l
  show validLabel (l.map pyToLower) = validLabel l
  exact validLabel_map_pyToLower l

/-- `pyLower` is idempotent. -/
theorem pyLower_idem (s : String) : pyLower (pyLower s) = pyLower s := by
  show String.mk (List.map pyToLower (List.map pyToLower s.data)) = String.mk (List.map pyToLower s.data)
  rw [List.map_map]
  have h : pyToLower ∘ pyToLower = pyToLower := funext (fun c => pyToLower_idem c)
  rw [h]

/-! ## Lemmas about the orchestrator fold -/

/-- `unionRun` unfolds on a cons. -/
theorem unionRun_cons (run : String → Except Unit (Finset String)) (m : String)
    (l : List String) : unionRun run (m :: l) = okSet run m ∪ unionRun run l :=
  rfl

/-- Characterisation of the orchestrator fold from any starting
accumulator: the union component collects the successful contributions, the
breakdown component appends one entry per dispatched method. -/
theorem orch_foldl (run : String → Except Unit (Finset String)) :
    ∀ (l : List String) (A : Finset String) (R : List (String × List String)),
      l.foldl (orchStep run) (A, R) = (A ∪ unionRun run l, R ++ l.map (methodEntry run))
  | [], A, R => by simp [unionRun]
  | m :: l, A, R => by
    rw [List.foldl_cons]
    cases hr : run m with
    | ok s =>
      have hstep : orchStep run (A, R) m = (A ∪ s, R ++ [(m, sortedSubs s)]) := by
        unfold orchStep
        rw [hr]
      rw [hstep, orch_foldl run l (A ∪ s) (R ++ [(m, sortedSubs s)])]
      have hok : okSet run m = s := by unfold okSet; rw [hr]
      have hme : methodEntry run m = (m, sortedSubs s) := by unfold methodEntry; rw [hr]
      rw [unionRun_cons, hok, List.map_cons, hme, Finset.union_assoc, List.append_assoc]
      rfl
    | error e =>
      have hstep : orchStep run (A, R) m = (A, R ++ [(m, [])]) := by
        unfold orchStep
        rw [hr]
      rw [hstep, orch_foldl run l A (R ++ [(m, [])])]
      have hok : okSet run m = ∅ := by unfold okSet; rw [hr]
      have hme : methodEntry run m = (m, []) := by unfold methodEntry; rw [hr]
      rw [unionRun_cons, hok, List.map_cons, hme, Finset.empty_union, List.append_assoc]
      rfl

/-- The orchestrator result, explicitly. -/
theorem discover_subdomains_eq (methods : List String)
    (run : String → Except Unit (Finset String)) :
    discover_subdomains methods run =
      (unionRun run (selectedMethods methods),
        (selectedMethods methods).map (methodEntry run)) := by
  unfold discover_subdomains
  rw [orch_foldl run (selectedMethods methods) ∅ []]
  rw [Finset.empty_union]
  rfl

/-- Membership in the union of contributions. -/
theorem mem_unionRun (run : String → Except Unit (Finset String)) (x : String) :
    ∀ l : List String, x ∈ unionRun run l ↔ ∃ m ∈ l, x ∈ okSet run m
  | [] => by simp [unionRun]
  | m :: l => by
    rw [unionRun_cons, Finset.mem_union, mem_unionRun run x l]
    simp

/-- The per-method breakdown determines the union of contributions. -/
theorem listUnion_map_methodEntry (run : String → Except Unit (Finset String)) :
    ∀ l : List String, listUnion (l.map (methodEntry run)) = unionRun run l
  | [] => rfl
  | m :: l => by
    rw [List.map_cons]
    show (methodEntry run m).2.toFinset ∪ listUnion (l.map (methodEntry run)) = _
    rw [listUnion_map_methodEntry run l, unionRun_cons]
    cases hr : run m with
    | ok s =>
      have hme : methodEntry run m = (m, sortedSubs s) := by unfold methodEntry; rw [hr]
      have hok : okSet run m = s := by unfold okSet; rw [hr]
      rw [hme, hok]
      show (sortedSubs s).toFinset ∪ _ = _
      rw [show (sortedSubs s).toFinset = s from Finset.sort_toFinset _ s]
    | error e =>
      have hme : methodEntry run m = (m, []) := by unfold methodEntry; rw [hr]
      have hok : okSet run m = ∅ := by unfold okSet; rw [hr]
      rw [hme, hok]
      simp

/-! ## Lemmas about the adapters -/

/-- A failed outcome contributes nothing in the CT loop. -/
theorem ctHandleOutcome_failed {domain : String} {acc : Finset String}
    {o : HttpOutcome (List CTCert)} (h : httpFailed o = true) :
    ctHandleOutcome domain acc o = acc := by
  cases o with
  | exn => rfl
  | resp status body =>
    simp only [httpFailed] at h
    simp only [ctHandleOutcome]
    by_cases h200 : status = 200
    · rw [if_pos h200]
      cases body with
      | none => rfl
      | some certs =>
        rw [h200] at h
        simp at h
    · rw [if_neg h200]

/-- Every member of a CT accumulator fold either was in the accumulator or
passes the CT name filter. -/
theorem mem_ct_foldl {domain x : String} :
    ∀ (outs : List (HttpOutcome (List CTCert))) (acc : Finset String),
      x ∈ outs.foldl (ctHandleOutcome domain) acc → x ∈ acc ∨ ct_name_ok domain x = true
  | [], acc, h => Or.inl h
  | o :: outs, acc, h => by
    rw [List.foldl_cons] at h
    rcases mem_ct_foldl outs (ctHandleOutcome domain acc o) h with h1 | h1
    · cases o with
      | exn => exact Or.inl h1
      | resp status body =>
        simp only [ctHandleOutcome] at h1
        by_cases h200 : status = 200
        · rw [if_pos h200] at h1
          cases body with
          | none => exact Or.inl h1
          | some certs =>
            rcases Finset.mem_union.mp h1 with h2 | h2
            · exact Or.inl h2
            · right
              rw [List.mem_toFinset] at h2
              obtain ⟨names, hn, hx⟩ := List.mem_flatten.mp h2
              obtain ⟨cert, hc, rfl⟩ := List.mem_map.mp hn
              exact (List.mem_filter.mp hx).2
        · rw [if_neg h200] at h1
          exact Or.inl h1
    · exact Or.inr h1

/-- Membership in the CT adapter output implies the CT name filter. -/
theorem mem_ct_discovery {domain x : String}
    {outs : List (HttpOutcome (List CTCert))}
    (h : x ∈ certificate_transparency_discovery domain outs) :
    ct_name_ok domain x = true := by
  rcases mem_ct_foldl outs ∅ h with h1 | h1
  · exact absurd h1 (Finset.not_mem_empty x)
  · exact h1

/-- Membership in the DNS adapter output. -/
theorem mem_dns_discovery {domain x : String} {resolves : String → Bool} :
    x ∈ dns_discovery domain resolves ↔
      ∃ sub ∈ common_subdomains,
        resolves (sub ++ (("." : String) ++ domain)) = true ∧
        x = sub ++ (("." : String) ++ domain) := by
  unfold dns_discovery
  rw [List.mem_toFinset]
  constructor
  · intro h
    obtain ⟨sub, hs, rfl⟩ := List.mem_map.mp h
    obtain ⟨hmem, hres⟩ := List.mem_filter.mp hs
    exact ⟨sub, hmem, hres, rfl⟩
  · rintro ⟨sub, hmem, hres, rfl⟩
    exact List.mem_map.mpr ⟨sub, List.mem_filter.mpr ⟨hmem, hres⟩, rfl⟩

/-- Decomposition of the CT name filter into its four conditions. -/
theorem ct_name_ok_iff (domain n : String) :
    ct_name_ok domain n = true ↔
      (pyEndsWith n (("." : String) ++ domain) = true ∧ pyContainsChar n '*' = false ∧
        n ≠ domain ∧ 2 ≤ (pySplit '.' n).length) := by
  unfold ct_name_ok
  simp only [Bool.and_eq_true, Bool.not_eq_true', decide_eq_true_eq, decide_eq_false_iff_not]
  tauto

/-- No wordlist entry contains a wildcard. -/
theorem wordlist_no_star : ∀ sub ∈ common_subdomains, pyContainsChar sub '*' = false := by
  decide

/-- The regex acceptance condition, in the specification's label terms. -/
theorem matchesDomainPattern_iff (v : String) :
    matchesDomainPattern v = true ↔ spec_domain_ok v := by
  unfold matchesDomainPattern spec_domain_ok
  rw [List.all_eq_true]
  constructor
  · exact fun h l hl => (validLabel_iff l).mp (h l hl)
  · exact fun h l hl => (validLabel_iff l).mpr (h l hl)

/-- Invariant of the DNS fan-out: permits held (in-flight probes) plus free
permits always equal the semaphore value. -/
theorem dnsFanout_invariant {n : Nat} {s : DnsFanout}
    (h : Relation.ReflTransGen DnsStep (dnsFanoutInit n) s) :
    s.inflight + s.permits = dnsSemaphoreValue := by
  induction h with
  | refl => rfl
  | @tail b c h2 hstep ih =>
    cases hstep with
    | acquire hp hfree =>
      show b.inflight + 1 + (b.permits - 1) = dnsSemaphoreValue
      omega
    | release hi =>
      show b.inflight - 1 + (b.permits + 1) = dnsSemaphoreValue
      omega

/-! ## Claim theorems -/

/-- C1: the claim says the orchestrator dispatches the adapters
concurrently, with total latency bounded by the slowest selected adapter.
The code (src/main.py lines 230-243) creates the adapter coroutines without
scheduling them and line 249 awaits them one at a time inside the `for`
loop, so the adapters run strictly sequentially and the total latency is
the sum of the individual latencies — here two adapters of latency 1 cost
2 time units, strictly more than the slowest adapter's 1.  This contradicts
the code's own comment on line 245 (`Execute all methods concurrently`). -/
theorem C1_sequential_latency :
    orchestratorElapsed (["dns", "crt"]) (fun _ => 1) = 2 ∧ 1 < 2 :=
  ⟨rfl, by omega⟩

/-- C9: along every run of the semaphore-gated DNS fan-out, whatever the
wordlist size `n`, the number of in-flight resolution probes never exceeds
the configured semaphore value 50. -/
theorem C9_semaphore_bound (n : Nat) (s : DnsFanout)
    (h : Relation.ReflTransGen DnsStep (dnsFanoutInit n) s) :
    s.inflight ≤ dnsSemaphoreValue := by
  have h2 := dnsFanout_invariant h
  omega

/-- Witness for C9 at a wordlist of 500 entries and the initial state. -/
theorem C9_semaphore_bound_witness : (dnsFanoutInit 500).inflight ≤ dnsSemaphoreValue :=
  C9_semaphore_bound 500 (dnsFanoutInit 500) Relation.ReflTransGen.refl

/-- C8: a request whose methods list contains an unknown name is rejected
by `validate_methods` with a validation error; the whole request pipeline
then fails before any adapter runs (its outcome is an error that does not
depend on the adapter oracles at all); and an omitted methods field
defaults to exactly `["dns", "crt"]`. -/
theorem C8_unknown_methods_rejected :
    (∀ (ms : List String) (m : String), m ∈ ms → m ∉ valid_methods →
      validate_methods (some ms) = Except.error ("Invalid method")) ∧
    (∀ (env : AdapterEnv) (domain : String) (ms : List String) (m : String),
      m ∈ ms → m ∉ valid_methods →
      ∃ e, processRequest env domain (some ms) = Except.error e) ∧
    (∀ (env envB : AdapterEnv) (domain : String) (ms : List String) (m : String),
      m ∈ ms → m ∉ valid_methods →
      processRequest env domain (some ms) = processRequest envB domain (some ms)) ∧
    validate_methods none = Except.ok (["dns", "crt"]) := by
  have hval : ∀ (ms : List String) (m : String), m ∈ ms → m ∉ valid_methods →
      validate_methods (some ms) = Except.error ("Invalid method") := by
    intro ms m hm hnm
    have hany : ms.any (fun x => !(valid_methods.contains x)) = true :=
      List.any_eq_true.mpr ⟨m, hm, by simpa using hnm⟩
    simp only [validate_methods, hany, if_true, if_pos]
  refine ⟨hval, ?_, ?_, rfl⟩
  · intro env domain ms m hm hnm
    unfold processRequest
    cases hd : validate_domain domain with
    | error e => exact ⟨e, rfl⟩
    | ok d =>
      rw [hval ms m hm hnm]
      exact ⟨_, rfl⟩
  · intro env envB domain ms m hm hnm
    unfold processRequest
    cases hd : validate_domain domain with
    | error e => rfl
    | ok d =>
      rw [hval ms m hm hnm]

/-- Witness for C8: the request of Scenario D (`methods = ["bogus"]`) is
rejected, and an omitted methods field defaults to the pair. -/
theorem C8_unknown_methods_rejected_witness :
    validate_methods (some ["bogus"]) = Except.error ("Invalid method") ∧
    (∃ e, processRequest envOnlyWww ("example.com") (some ["bogus"]) = Except.error e) ∧
    validate_methods none = Except.ok (["dns", "crt"]) :=
  ⟨C8_unknown_methods_rejected.1 (["bogus"]) ("bogus") (by decide) (by decide),
   C8_unknown_methods_rejected.2.1 envOnlyWww ("example.com") (["bogus"]) ("bogus")
     (by decide) (by decide),
   C8_unknown_methods_rejected.2.2.2⟩

/-- C3 (amended): validation succeeds exactly when, after discounting at
most one trailing newline, every dot-separated label is nonempty, at most
63 characters from `[a-zA-Z0-9-]`, and free of edge hyphens — and then the
lowercased input is returned, otherwise the `Invalid domain format` error
results.  The claim's further condition that strings longer than 253
characters are rejected does not hold of the code (no total-length check
exists; see the counterexample), and a single trailing newline is tolerated
by the `re.match`/`$` combination even though `\n` is outside
`[a-zA-Z0-9.-]`. -/
theorem C3_validation_charset (v : String) :
    (validationAccepts (validate_domain v) = true ↔ spec_domain_ok v) ∧
    (spec_domain_ok v → validate_domain v = Except.ok (pyLower v)) ∧
    (¬spec_domain_ok v → validate_domain v = Except.error ("Invalid domain format")) := by
  by_cases hm : matchesDomainPattern v = true
  · have hs := (matchesDomainPattern_iff v).mp hm
    have hv : validate_domain v = Except.ok (pyLower v) := by
      unfold validate_domain
      rw [if_pos hm]
    refine ⟨?_, fun _ => hv, fun hn => absurd hs hn⟩
    rw [hv]
    simp [validationAccepts, hs]
  · have hs : ¬spec_domain_ok v := fun h => hm ((matchesDomainPattern_iff v).mpr h)
    have hv : validate_domain v = Except.error ("Invalid domain format") := by
      unfold validate_domain
      rw [if_neg hm]
    refine ⟨?_, fun h => absurd h hs, fun _ => hv⟩
    rw [hv]
    simp [validationAccepts, hs]

/-- Counterexample for C3: `longLabelChain` is 255 characters long (128
labels `a`), yet validation accepts it — the claimed 253-character bound is
not checked anywhere; and `"example.com\n"` contains a newline, a character
outside `[a-zA-Z0-9.-]`, yet validation accepts it too. -/
theorem C3_validation_charset_counterexample :
    longLabelChain.length = 255 ∧
    validate_domain longLabelChain = Except.ok longLabelChain ∧
    validate_domain ("example.com\n") = Except.ok ("example.com\n") ∧
    ('\n' ∈ ("example.com\n").data) ∧ inDomainCharset '\n' = false := by
  refine ⟨by decide, rfl, rfl, by decide, by decide⟩

/-- Witness for C3 (amended) at `Sub.Example.COM`: the label conditions
hold, and validation returns the lowercased string. -/
theorem C3_validation_charset_witness :
    validate_domain ("Sub.Example.COM") = Except.ok (pyLower ("Sub.Example.COM")) :=
  (C3_validation_charset ("Sub.Example.COM")).2.1
    ((matchesDomainPattern_iff ("Sub.Example.COM")).mp (by decide))

/-- C10: the validator accepts any single-label name (no dot at all) of at
most 63 characters from `[a-zA-Z0-9-]` with no hyphen at either end, and
returns it lowercased — for example `localhost` — even though such a name
is not a multi-label fully-qualified DNS name. -/
theorem C10_single_label_accepted (s : String) (h1 : s.data ≠ [])
    (h2 : s.length ≤ 63) (h3 : ∀ c ∈ s.data, isLabelChar c = true)
    (h4 : s.data.head? ≠ some '-') (h5 : s.data.getLast? ≠ some '-') :
    validate_domain s = Except.ok (pyLower s) := by
  have hchar : ∀ c ∈ s.data, c ≠ '\n' ∧ c ≠ '.' := by
    intro c hc
    have h := h3 c hc
    constructor
    · intro he
      rw [he] at h
      exact absurd h (by decide)
    · intro he
      rw [he] at h
      exact absurd h (by decide)
  have hcore : domainCore s = s.data := by
    unfold domainCore
    rcases s.data.eq_nil_or_concat with hnil | ⟨m, z, hconc⟩
    · exact absurd hnil h1
    · rw [if_neg]
      rw [hconc, List.concat_eq_append, List.getLastD_concat]
      exact (hchar z (by rw [hconc, List.concat_eq_append]; simp)).1
  have hsingle : splitOnChar '.' s.data = [s.data] :=
    splitOnChar_eq_single '.' s.data (fun c hc => (hchar c hc).2)
  have hmatch : matchesDomainPattern s = true := by
    unfold matchesDomainPattern
    rw [hcore, hsingle]
    simp only [List.all_cons, List.all_nil, Bool.and_true]
    exact (validLabel_iff s.data).mpr ⟨h1, h2, h3, h4, h5⟩
  unfold validate_domain
  rw [if_pos hmatch]

/-- Witness for C10 at `localhost`. -/
theorem C10_single_label_accepted_witness :
    validate_domain ("localhost") = Except.ok (pyLower ("localhost")) :=
  C10_single_label_accepted ("localhost") (by decide) (by decide) (by decide)
    (by decide) (by decide)

/-- C7: domain validation is case-insensitive-idempotent — validating the
value returned by a successful validation yields the same Domain, and for
any accepted input, validating its lowercasing gives the same result as
validating the input. -/
theorem C7_validation_idempotent :
    (∀ x w, validate_domain x = Except.ok w → validate_domain w = Except.ok w) ∧
    (∀ d, validationAccepts (validate_domain d) = true →
      validate_domain (pyLower d) = validate_domain d) := by
  constructor
  · intro x w h
    by_cases hm : matchesDomainPattern x = true
    · unfold validate_domain at h
      rw [if_pos hm] at h
      have hw : pyLower x = w := by
        injection h
      subst hw
      unfold validate_domain
      rw [if_pos (by rw [matchesDomainPattern_pyLower]; exact hm), pyLower_idem]
    · unfold validate_domain at h
      rw [if_neg hm] at h
      exact absurd h (by simp)
  · intro d hd
    have hm : matchesDomainPattern d = true := by
      by_cases h : matchesDomainPattern d = true
      · exact h
      · unfold validate_domain at hd
        rw [if_neg h] at hd
        exact absurd hd (by simp [validationAccepts])
    unfold validate_domain
    rw [matchesDomainPattern_pyLower, if_pos hm, if_pos hm, pyLower_idem]

/-- Witness for C7 at `ExAmple.COM`: re-validating the returned Domain
`example.com` succeeds with the same value, and validating the lowercasing
agrees with validating the original. -/
theorem C7_validation_idempotent_witness :
    validate_domain ("example.com") = Except.ok ("example.com") ∧
    validate_domain (pyLower ("ExAmple.COM")) = validate_domain ("ExAmple.COM") :=
  ⟨C7_validation_idempotent.1 ("ExAmple.COM") ("example.com") rfl,
   C7_validation_idempotent.2 ("ExAmple.COM") (by decide)⟩

/-- C6: a name appears in the CT adapter output for a successfully parsed
200 response exactly when it is the stripped, lowercased form of a
newline-separated piece of some record's name field and it ends with
`.{domain}`, contains no wildcard, differs from the domain, and has at
least two dot-separated parts; and Scenario B: records
`a.example.com\nb.example.com` and `*.example.com\nexample.com` for domain
`example.com` yield exactly `{a.example.com, b.example.com}`. -/
theorem C6_ct_extraction :
    (∀ (domain : String) (certs : List CTCert) (n : String),
      n ∈ certificate_transparency_discovery domain [HttpOutcome.resp 200 (some certs)] ↔
        ∃ c ∈ certs, ∃ raw ∈ pySplit '\n' (c.name_value.getD ("")),
          n = pyLower (pyStrip raw) ∧
          pyEndsWith n (("." : String) ++ domain) = true ∧
          pyContainsChar n '*' = false ∧ n ≠ domain ∧
          2 ≤ (pySplit '.' n).length) ∧
    certificate_transparency_discovery ("example.com")
      [HttpOutcome.resp 200 (some [⟨some ("a.example.com\nb.example.com")⟩,
        ⟨some ("*.example.com\nexample.com")⟩])] =
      {("a.example.com" : String), ("b.example.com")} := by
  constructor
  · intro domain certs n
    show n ∈ (∅ : Finset String) ∪ ((certs.map (ctCertNames domain)).flatten).toFinset ↔ _
    rw [Finset.mem_union, List.mem_toFinset, List.mem_flatten]
    constructor
    · rintro (habs | ⟨names, hn, hmem⟩)
      · exact absurd habs (Finset.not_mem_empty n)
      · obtain ⟨cert, hc, rfl⟩ := List.mem_map.mp hn
        unfold ctCertNames at hmem
        obtain ⟨hmem2, hok⟩ := List.mem_filter.mp hmem
        obtain ⟨raw, hraw, hn2⟩ := List.mem_map.mp hmem2
        rw [ct_name_ok_iff] at hok
        exact ⟨cert, hc, raw, hraw, hn2.symm, hok.1, hok.2.1, hok.2.2.1, hok.2.2.2⟩
    · rintro ⟨cert, hc, raw, hraw, rfl, hend, hstar, hne, hlen⟩
      right
      refine ⟨ctCertNames domain cert, List.mem_map_of_mem (ctCertNames domain) hc, ?_⟩
      unfold ctCertNames
      refine List.mem_filter.mpr ⟨List.mem_map_of_mem _ hraw, ?_⟩
      rw [ct_name_ok_iff]
      exact ⟨hend, hstar, hne, hlen⟩
  · decide

/-- Witness giving a concrete instance of the C6 equivalence: the name
`a.example.com` is produced from the record `a.example.com\nb.example.com`
for domain `example.com`. -/
theorem C6_ct_extraction_witness :
    ("a.example.com" : String) ∈ certificate_transparency_discovery ("example.com")
      [HttpOutcome.resp 200 (some [⟨some ("a.example.com\nb.example.com")⟩])] :=
  ((C6_ct_extraction.1 ("example.com") ([⟨some ("a.example.com\nb.example.com")⟩])
      ("a.example.com")).mpr
    ⟨⟨some ("a.example.com\nb.example.com")⟩, by decide, ("a.example.com"), by decide,
      by decide, by decide, by decide, by decide, by decide⟩)

/-- C5: in every completed report, the `subdomains` field is the sorted
deduplicated union of the per-method result lists of `results_by_method`,
`total_found` is the length of that list, and every per-method entry is
itself sorted and duplicate-free. -/
theorem C5_report_union (domain : String) (methods : List String)
    (run : String → Except Unit (Finset String)) :
    (discover_subdomains_route domain methods run).subdomains =
      Finset.sort (fun a b => a ≤ b)
        (listUnion (discover_subdomains_route domain methods run).results_by_method) ∧
    (discover_subdomains_route domain methods run).total_found =
      (discover_subdomains_route domain methods run).subdomains.length ∧
    ∀ p ∈ (discover_subdomains_route domain methods run).results_by_method,
      List.Sorted (fun a b => a ≤ b) p.2 ∧ p.2.Nodup := by
  have heq := discover_subdomains_eq methods run
  refine ⟨?_, ?_, ?_⟩
  · show Finset.sort (fun a b => a ≤ b) (discover_subdomains methods run).1 =
      Finset.sort (fun a b => a ≤ b) (listUnion (discover_subdomains methods run).2)
    rw [heq]
    show Finset.sort (fun a b => a ≤ b) (unionRun run (selectedMethods methods)) =
      Finset.sort (fun a b => a ≤ b)
        (listUnion ((selectedMethods methods).map (methodEntry run)))
    rw [listUnion_map_methodEntry]
  · show (discover_subdomains methods run).1.card =
      (Finset.sort (fun a b => a ≤ b) (discover_subdomains methods run).1).length
    rw [Finset.length_sort]
  · intro p hp
    have hp2 : p ∈ (selectedMethods methods).map (methodEntry run) := by
      have : (discover_subdomains methods run).2 =
          (selectedMethods methods).map (methodEntry run) := by rw [heq]
      rw [← this]
      exact hp
    obtain ⟨m, hm, rfl⟩ := List.mem_map.mp hp2
    cases hr : run m with
    | ok s =>
      have hme : methodEntry run m = (m, sortedSubs s) := by unfold methodEntry; rw [hr]
      rw [hme]
      exact ⟨Finset.sort_sorted _ _, Finset.sort_nodup _ _⟩
    | error e =>
      have hme : methodEntry run m = (m, []) := by unfold methodEntry; rw [hr]
      rw [hme]
      exact ⟨List.sorted_nil, List.nodup_nil⟩

/-- Witness instantiating C5 at a request in which the only selected
adapter call fails: its breakdown entry `("dns", [])` is sorted and
duplicate-free. -/
theorem C5_report_union_witness :
    List.Sorted (fun a b => (a : String) ≤ b) ((("dns" : String), ([] : List String)).2) ∧
    ((("dns" : String), ([] : List String)).2).Nodup :=
  (C5_report_union ("example.com") (["dns"]) (fun _ => Except.error ())).2.2
    (("dns"), []) (by decide)

/-- C4: every adapter is a total function of its I/O oracle and returns the
empty set under any failure (exception, timeout, non-success status, or
unparseable body); a resolver that never succeeds yields an empty DNS
result; and the orchestrator records the empty `results_by_method` entry
for any adapter call that fails unexpectedly instead of propagating it. -/
theorem C4_failure_isolation :
    (∀ (domain : String) (outs : List (HttpOutcome (List CTCert))),
      (∀ o ∈ outs, httpFailed o = true) →
      certificate_transparency_discovery domain outs = ∅) ∧
    (∀ (domain : String) (o : HttpOutcome String), httpFailed o = true →
      hackertarget_discovery domain o = ∅) ∧
    (∀ (domain : String) (o : HttpOutcome (List String)), httpFailed o = true →
      threatcrowd_discovery domain o = ∅) ∧
    (∀ (domain : String) (o : HttpOutcome (List String)), httpFailed o = true →
      virustotal_discovery domain o = ∅) ∧
    (∀ (domain : String) (resolves : String → Bool), (∀ x, resolves x = false) →
      dns_discovery domain resolves = ∅) ∧
    (∀ (methods : List String) (run : String → Except Unit (Finset String)) (m : String),
      m ∈ selectedMethods methods → run m = Except.error () →
      (m, ([] : List String)) ∈ (discover_subdomains methods run).2) := by
  have hfold : ∀ (domain : String) (outs : List (HttpOutcome (List CTCert)))
      (acc : Finset String), (∀ o ∈ outs, httpFailed o = true) →
      outs.foldl (ctHandleOutcome domain) acc = acc := by
    intro domain outs
    induction outs with
    | nil => intro acc h; rfl
    | cons o outs ih =>
      intro acc h
      rw [List.foldl_cons, ctHandleOutcome_failed (h o (List.mem_cons_self o outs))]
      exact ih acc (fun x hx => h x (List.mem_cons_of_mem o hx))
  refine ⟨?_, ?_, ?_, ?_, ?_, ?_⟩
  · intro domain outs h
    exact hfold domain outs ∅ h
  · intro domain o h
    cases o with
    | exn => rfl
    | resp status body =>
      simp only [httpFailed] at h
      simp only [hackertarget_discovery]
      by_cases h200 : status = 200
      · subst h200
        simp at h
        cases body with
        | none => simp
        | some t => simp at h
      · rw [if_neg h200]
  · intro domain o h
    cases o with
    | exn => rfl
    | resp status body =>
      simp only [httpFailed] at h
      simp only [threatcrowd_discovery]
      by_cases h200 : status = 200
      · subst h200
        simp at h
        cases body with
        | none => simp
        | some t => simp at h
      · rw [if_neg h200]
  · intro domain o h
    cases o with
    | exn => rfl
    | resp status body =>
      simp only [httpFailed] at h
      simp only [virustotal_discovery]
      by_cases h200 : status = 200
      · subst h200
        simp at h
        cases body with
        | none => simp
        | some t => simp at h
      · rw [if_neg h200]
  · intro domain resolves h
    unfold dns_discovery
    have hfil : common_subdomains.filter
        (fun sub => resolves (sub ++ (("." : String) ++ domain))) = [] := by
      rw [List.filter_eq_nil_iff]
      intro a ha
      rw [h]
      simp
    rw [hfil]
    rfl
  · intro methods run m hm hrun
    rw [discover_subdomains_eq]
    show (m, ([] : List String)) ∈ (selectedMethods methods).map (methodEntry run)
    refine List.mem_map.mpr ⟨m, hm, ?_⟩
    unfold methodEntry
    rw [hrun]

/-- Witness for C4: concrete failing outcomes for each adapter produce the
empty set, and a failing orchestrator call yields the empty breakdown
entry. -/
theorem C4_failure_isolation_witness :
    certificate_transparency_discovery ("example.com")
      [HttpOutcome.exn, HttpOutcome.resp 500 none, HttpOutcome.resp 200 none] = ∅ ∧
    hackertarget_discovery ("example.com") (HttpOutcome.resp 503 none) = ∅ ∧
    threatcrowd_discovery ("example.com") HttpOutcome.exn = ∅ ∧
    virustotal_discovery ("example.com") (HttpOutcome.resp 200 none) = ∅ ∧
    dns_discovery ("example.com") (fun _ => false) = ∅ ∧
    (("crt" : String), ([] : List String)) ∈
      (discover_subdomains (["dns", "crt"]) (fun _ => Except.error ())).2 :=
  ⟨C4_failure_isolation.1 ("example.com") _ (by decide),
   C4_failure_isolation.2.1 ("example.com") _ (by decide),
   C4_failure_isolation.2.2.1 ("example.com") _ (by decide),
   C4_failure_isolation.2.2.2.1 ("example.com") _ (by decide),
   C4_failure_isolation.2.2.2.2.1 ("example.com") _ (fun x => rfl),
   C4_failure_isolation.2.2.2.2.2 (["dns", "crt"]) _ ("crt") (by decide) rfl⟩

/-- C2 (amended): when the requested methods are among `dns` and `crt`,
every string in the final report ends with `.` + the queried domain,
contains no wildcard, and differs from the domain — because those two
adapters enforce it (the DNS adapter by construction from a
wildcard-free wordlist, the CT adapter by its name filter).  The
orchestrator itself re-checks nothing, and the threatcrowd adapter demands
only non-emptiness and difference from the domain, so with threatcrowd
requested the property fails (see the counterexample).  The hypothesis
that the domain contains no `*` is part of the Domain invariant
established by validation. -/
theorem C2_report_filter (env : AdapterEnv) (d : String) (methods : List String)
    (hstar : pyContainsChar d '*' = false)
    (hmeth : ∀ m ∈ methods, m = ("dns" : String) ∨ m = ("crt" : String)) :
    ∀ s ∈ (discover_subdomains_route d methods
        (fun m => Except.ok (runAdapters env d m))).subdomains,
      pyEndsWith s (("." : String) ++ d) = true ∧
      pyContainsChar s '*' = false ∧ s ≠ d := by
  intro s hs
  have hs2 : s ∈ (discover_subdomains methods
      (fun m => Except.ok (runAdapters env d m))).1 := (Finset.mem_sort _).mp hs
  have hs3 : s ∈ unionRun (fun m => Except.ok (runAdapters env d m))
      (selectedMethods methods) := by
    have heq := discover_subdomains_eq methods (fun m => Except.ok (runAdapters env d m))
    have h1 : (discover_subdomains methods (fun m => Except.ok (runAdapters env d m))).1 =
        unionRun (fun m => Except.ok (runAdapters env d m)) (selectedMethods methods) := by
      rw [heq]
    rw [← h1]
    exact hs2
  obtain ⟨m, hm, hsm⟩ := (mem_unionRun _ s (selectedMethods methods)).mp hs3
  have hmm : m ∈ methods := by
    have h2 := (List.mem_filter.mp hm).2
    simpa using h2
  rcases hmeth m hmm with rfl | rfl
  · have hok : okSet (fun m => Except.ok (runAdapters env d m)) ("dns") =
        dns_discovery d env.resolves := rfl
    rw [hok] at hsm
    obtain ⟨sub, hsub, hres, rfl⟩ := mem_dns_discovery.mp hsm
    refine ⟨?_, ?_, ?_⟩
    · unfold pyEndsWith
      rw [decide_eq_true_eq, String.data_append]
      exact List.suffix_append _ _
    · unfold pyContainsChar
      rw [decide_eq_false_iff_not, String.data_append, String.data_append]
      intro hmem2
      rcases List.mem_append.mp hmem2 with h | h
      · have hws := wordlist_no_star sub hsub
        unfold pyContainsChar at hws
        rw [decide_eq_false_iff_not] at hws
        exact hws h
      · rcases List.mem_append.mp h with h2 | h2
        · simp at h2
        · unfold pyContainsChar at hstar
          rw [decide_eq_false_iff_not] at hstar
          exact hstar h2
    · intro he
      have hlen := congrArg (fun t : String => t.data.length) he
      simp only [String.data_append, List.length_append, List.length_singleton] at hlen
      omega
  · have hok : okSet (fun m => Except.ok (runAdapters env d m)) ("crt") =
        certificate_transparency_discovery d env.ct := rfl
    rw [hok] at hsm
    have hok2 := mem_ct_discovery hsm
    rw [ct_name_ok_iff] at hok2
    exact ⟨hok2.1, hok2.2.1, hok2.2.2.1⟩

/-- Counterexample for C2: with only the threatcrowd method requested and
ThreatCrowd answering `*.evil.org`, the whole request succeeds and the
final report contains `*.evil.org` — a string that has a wildcard and does
not end with `.example.com` — so neither the threatcrowd adapter nor the
Orchestrator re-checks the claimed conditions. -/
theorem C2_report_filter_counterexample :
    processRequest envThreatcrowdStar ("example.com") (some ["threatcrowd"]) =
      Except.ok
        { domain := ("example.com"), subdomains := ["*.evil.org"], total_found := 1,
          methods_used := ["threatcrowd"],
          results_by_method := [(("threatcrowd" : String), ["*.evil.org"])] } ∧
    pyEndsWith ("*.evil.org") (("." : String) ++ ("example.com")) = false ∧
    pyContainsChar ("*.evil.org") '*' = true := by
  refine ⟨?_, by decide, by decide⟩
  have hv : validate_domain ("example.com") = Except.ok ("example.com") := rfl
  have hms : validate_methods (some ["threatcrowd"]) = Except.ok (["threatcrowd"]) := rfl
  unfold processRequest
  rw [hv, hms]
  refine congrArg Except.ok ?_
  have hset : (discover_subdomains (["threatcrowd"])
      (fun m => Except.ok (runAdapters envThreatcrowdStar ("example.com") m))).1 =
      {("*.evil.org" : String)} := by decide
  have hrbm : (discover_subdomains (["threatcrowd"])
      (fun m => Except.ok (runAdapters envThreatcrowdStar ("example.com") m))).2 =
      [(("threatcrowd" : String), ["*.evil.org"])] := by
    rw [discover_subdomains_eq]
    show [methodEntry (fun m => Except.ok (runAdapters envThreatcrowdStar ("example.com") m))
      ("threatcrowd")] = _
    have hme : methodEntry (fun m => Except.ok (runAdapters envThreatcrowdStar ("example.com") m))
        ("threatcrowd") = (("threatcrowd" : String),
          sortedSubs {("*.evil.org" : String)}) := by
      show (("threatcrowd" : String),
        sortedSubs (runAdapters envThreatcrowdStar ("example.com") ("threatcrowd"))) = _
      have h3 : runAdapters envThreatcrowdStar ("example.com") ("threatcrowd") =
          {("*.evil.org" : String)} := by decide
      rw [h3]
    rw [hme]
    unfold sortedSubs
    rw [Finset.sort_singleton]
  show ({ domain := ("example.com")
          subdomains := Finset.sort (fun a b => a ≤ b) (discover_subdomains (["threatcrowd"])
            (fun m => Except.ok (runAdapters envThreatcrowdStar ("example.com") m))).1
          total_found := (discover_subdomains (["threatcrowd"])
            (fun m => Except.ok (runAdapters envThreatcrowdStar ("example.com") m))).1.card
          methods_used := ["threatcrowd"]
          results_by_method := (discover_subdomains (["threatcrowd"])
            (fun m => Except.ok (runAdapters envThreatcrowdStar ("example.com") m))).2 } :
      SubdomainResponse) = _
  rw [hset, hrbm, Finset.sort_singleton]
  rfl

/-- Witness for C2 (amended): with methods `dns` and `crt` and a resolver
where only `www.example.com` exists, the reported string indeed satisfies
all three conditions. -/
theorem C2_report_filter_witness :
    pyEndsWith ("www.example.com") (("." : String) ++ ("example.com")) = true ∧
    pyContainsChar ("www.example.com") '*' = false ∧
    ("www.example.com" : String) ≠ ("example.com") :=
  C2_report_filter envOnlyWww ("example.com") (["dns", "crt"]) (by decide) (by decide)
    ("www.example.com")
    (by
      show ("www.example.com" : String) ∈ Finset.sort (fun a b => (a : String) ≤ b)
        (discover_subdomains (["dns", "crt"])
          (fun m => Except.ok (runAdapters envOnlyWww ("example.com") m))).1
      exact (Finset.mem_sort (fun a b => a ≤ b)).mpr (by decide))
